import Mathlib

/-!
# Verification development for `main.go` (gin examples)

The file embeds the handlers `gin01`, `gin02`, the `/loginJSON` handler of
`ginModelBind`, the `/cookie` handler of `ginCookie` and the supervisor
`ginStartAllServer` of `src/main.go`.

Go values are embedded as follows.

* `error` is `Option Error` (`none` is `nil`), `Error` being the message.
* `gin.H` (a Go `map[string]interface{}`) is a list of key/value entries whose
  order carries no meaning: the encoder sorts the entries by key, as
  `encoding/json` does for maps.
* `*gin.Context` is a record that is passed through the handler; the standard
  logger's output is part of it.
* Results of library calls that inspect the request (`c.Cookie`,
  `c.ShouldBind`) are parameters of the handler that uses them.
-/

namespace GinExamples

/-- Go `error` values are represented by their message. -/
abbrev Error := String

/-! ## JSON rendering of `gin.H` payloads -/

/-- Values stored in the `gin.H` payloads of the program: integers and strings. -/
inductive JVal where
  | int (n : Int)
  | str (s : String)
  deriving DecidableEq, Repr

/-- The Go type `gin.H`, that is `map[string]interface{}`, as a list of entries. -/
abbrev H := List (String × JVal)

/-- Lower-case hexadecimal digit of `n % 16`. -/
def hexDigit (n : Nat) : Char :=
  "0123456789abcdef".toList.getD (n % 16) '0'

/-- The escape sequence `\uXXXX` that `encoding/json` writes for a code point below `0x10000`. -/
def unicodeEscape (n : Nat) : String :=
  String.mk ['\\', 'u', hexDigit (n / 4096), hexDigit (n / 256), hexDigit (n / 16), hexDigit n]

/-- How `encoding/json` (HTML escaping on, as `json.Marshal` has it) writes one character
inside a string literal. -/
def escapeChar (c : Char) : String :=
  if c = '"' then String.mk ['\\', '"']
  else if c = '\\' then String.mk ['\\', '\\']
  else if c = '\n' then String.mk ['\\', 'n']
  else if c = '\r' then String.mk ['\\', 'r']
  else if c = '\t' then String.mk ['\\', 't']
  else if c.toNat < 32 ∨ c = '<' ∨ c = '>' ∨ c = '&' ∨ c.toNat = 8232 ∨ c.toNat = 8233 then
    unicodeEscape c.toNat
  else String.singleton c

/-- A JSON string literal. -/
def quote (s : String) : String :=
  "\"" ++ String.join (s.toList.map escapeChar) ++ "\""

/-- Rendering of one payload value. -/
def JVal.render : JVal → String
  | .int n => toString n
  | .str s => quote s

/-- Key order used by `encoding/json` when it writes a map: entries sorted by key, keys compared
character by character (for valid UTF-8 this is the byte order Go sorts by). -/
def keyLE (a b : String × JVal) : Prop := a.1.toList ≤ b.1.toList

instance : DecidableRel keyLE := fun a b => inferInstanceAs (Decidable (a.1.toList ≤ b.1.toList))

/-- Entries of a map in the order in which `encoding/json` writes them. -/
def sortedEntries (h : H) : List (String × JVal) := h.insertionSort keyLE

/-- The bytes `json.Marshal` produces for a `gin.H`. -/
def marshal (h : H) : String :=
  "\x7b" ++ ",".intercalate ((sortedEntries h).map fun e => quote e.1 ++ ":" ++ e.2.render) ++ "\x7d"

/-! ## Requests, response writers and contexts -/

/-- A cookie passed to `http.SetCookie`. -/
structure Cookie where
  Name : String
  Value : String
  MaxAge : Int
  Path : String
  Domain : String
  Secure : Bool
  HttpOnly : Bool
  deriving DecidableEq, Repr

/-- An incoming HTTP request. -/
structure Request where
  Method : String
  Path : String
  RawQuery : String
  Header : List (String × String)
  Body : String
  deriving DecidableEq, Repr

/-- State of gin's response writer: what the client receives. -/
structure ResponseWriter where
  status : Nat
  written : Bool
  header : List (String × String)
  cookies : List Cookie
  body : String
  deriving DecidableEq, Repr

/-- The `*gin.Context` of one request, together with the output of the standard logger. -/
structure Context where
  Request : Request
  Writer : ResponseWriter
  log : List String
  deriving DecidableEq, Repr

/-- A gin handler function. -/
abbrev HandlerFunc := Context → Context

/-- The writer gin hands to the first handler: status 200, nothing written. -/
def freshWriter : ResponseWriter :=
  { status := 200, written := false, header := [], cookies := [], body := "" }

/-- The string `fmt.Sprintln` builds: operands separated by blanks, newline appended. -/
def Sprintln (args : List String) : String := " ".intercalate args ++ "\n"

/-- The call `log.Println(args...)`: one line appended to the logger's output (the time stamp the
logger puts in front is left out). -/
def Context.logPrintln (c : Context) (args : List String) : Context :=
  { c with log := c.log ++ [Sprintln args] }

/-- The method `ResponseWriter.WriteHeader` of gin: the status changes only before the first write. -/
def ResponseWriter.WriteHeader (w : ResponseWriter) (code : Nat) : ResponseWriter :=
  if 0 < code ∧ w.status ≠ code then
    if w.written then w else { w with status := code }
  else w

/-- Sets `Content-Type` unless the header already has one. -/
def ResponseWriter.writeContentType (w : ResponseWriter) (value : String) : ResponseWriter :=
  if (w.header.lookup "Content-Type").isSome then w
  else { w with header := w.header ++ [("Content-Type", value)] }

/-- Statuses for which a response carries a body. -/
def bodyAllowedForStatus (status : Nat) : Bool :=
  if 100 ≤ status ∧ status ≤ 199 then false
  else if status = 204 then false
  else if status = 304 then false
  else true

/-- The call `c.JSON(code, obj)`: status, content type and the marshalled object. -/
def Context.JSON (c : Context) (code : Nat) (obj : H) : Context :=
  let w := c.Writer.WriteHeader code
  let w := w.writeContentType "application/json; charset=utf-8"
  if bodyAllowedForStatus code then
    { c with Writer := { w with written := true, body := w.body ++ marshal obj } }
  else
    { c with Writer := { w with written := true } }

/-- Upper-case hexadecimal digit of `n % 16`. -/
def upperHexDigit (n : Nat) : Char :=
  "0123456789ABCDEF".toList.getD (n % 16) '0'

/-- The function `url.QueryEscape`. -/
def QueryEscape (s : String) : String :=
  String.join (s.toList.map fun ch =>
    if ch.isAlphanum ∨ ch = '-' ∨ ch = '_' ∨ ch = '.' ∨ ch = '~' then String.singleton ch
    else if ch = ' ' then "+"
    else String.join ((String.utf8EncodeChar ch).map fun b =>
      String.mk ['%', upperHexDigit (b.toNat / 16), upperHexDigit b.toNat]))

/-- The call `c.SetCookie(name, value, maxAge, path, domain, secure, httpOnly)`. -/
def Context.SetCookie (c : Context) (name value : String) (maxAge : Int) (path domain : String)
    (secure httpOnly : Bool) : Context :=
  let path := if path = "" then "/" else path
  { c with Writer := { c.Writer with cookies := c.Writer.cookies ++
      [{ Name := name, Value := QueryEscape value, MaxAge := maxAge, Path := path,
         Domain := domain, Secure := secure, HttpOnly := httpOnly }] } }

/-! ## Routing -/

/-- One entry of a router's table. -/
structure Route where
  method : String
  path : String
  handler : HandlerFunc

/-- A gin engine: its route table. Only the static routes the program registers are modelled. -/
abbrev Engine := List Route

/-- The engine `gin.New()` returns. -/
def New : Engine := []

/-- The engine `gin.Default()` returns: `gin.New()` with gin's `Logger` and `Recovery` attached.
The two write to gin's own writer, not to the standard logger, and leave the response of a handler
that does not panic as it is; they are not modelled. -/
def Default : Engine := New

/-- The call `router.GET(path, handler)`. -/
def Engine.GET (router : Engine) (path : String) (handler : HandlerFunc) : Engine :=
  router ++ [{ method := "GET", path := path, handler := handler }]

/-- What the client receives. -/
structure Response where
  status : Nat
  header : List (String × String)
  cookies : List Cookie
  body : String
  deriving DecidableEq, Repr

/-- The response a writer amounts to. -/
def ResponseWriter.toResponse (w : ResponseWriter) : Response :=
  { status := w.status, header := w.header, cookies := w.cookies, body := w.body }

/-- Dispatch of one request: the handler of the first route with the request's method and path
runs on a fresh writer. The answer is `none` when no registered route matches; what gin answers
then is part of `Engine.handle`. The logger's output before the request goes in, its output
after the request comes out. -/
def Engine.ServeHTTP (router : Engine) (log : List String) (req : Request) :
    Option (Response × List String) :=
  match router.find? fun r => r.method = req.Method ∧ r.path = req.Path with
  | none => none
  | some r =>
    let c := r.handler { Request := req, Writer := freshWriter, log := log }
    some (c.Writer.toResponse, c.log)

/-- The writer state a response was sent from. -/
def Response.toWriter (r : Response) : ResponseWriter :=
  { status := r.status, written := true, header := r.header, cookies := r.cookies, body := r.body }

/-- What gin's `ServeHTTP` does to the context it takes from the engine's pool before it
dispatches: `c.writermem.reset(w)`, `c.Request = req`, `c.reset()`. The context keeps nothing
of the request it served before; the output of the standard logger is the process's and stays. -/
def Context.reset (c : Context) (req : GinExamples.Request) : Context :=
  { c with Request := req, Writer := freshWriter }

/-- The body gin sends when no route matches. -/
def default404Body : String := "404 page not found"

/-- The function `serveError` of gin, for an engine without no-route handlers that write: status
`code` and, when nothing was written, the plain-text message. -/
def Context.serveError (c : Context) (code : Nat) (defaultMessage : String) : Context :=
  let w := { c.Writer with status := code }
  if w.written then { c with Writer := w }
  else { c with Writer := { w with
      header := (w.header.filter fun h => h.1 ≠ "Content-Type") ++ [("Content-Type", "text/plain")],
      written := true, body := w.body ++ defaultMessage } }

/-- Whether gin recommends a trailing-slash redirect: no static route of the method has the
path, and one has the path with a slash added or removed at the end. -/
def Engine.tsr (router : Engine) (method path : String) : Bool :=
  router.any fun r => r.method = method ∧ (r.path = path ++ "/" ∨ path = r.path ++ "/")

/-- Gin's `ServeHTTP` followed by `handleHTTPRequest`, as a total function: the pooled context
`pool`, in whatever state the request it served before left it, is reset and then
* the handler of the first route with the request's method and path runs on it;
* or, when none matches and gin recommends a trailing-slash redirect, the redirect is answered:
  `redirect` is what the library functions `redirectTrailingSlash` and `http.Redirect` compute
  from the request (status 301 or 307, the `Location` header, the body), a parameter here;
* or else `serveError` answers 404.
The result is the response and the context that goes back to the pool. -/
def Engine.handle (router : Engine) (redirect : Request → Response) (pool : Context)
    (req : Request) : Response × Context :=
  let c := pool.reset req
  match router.find? fun r => r.method = req.Method ∧ r.path = req.Path with
  | some r =>
    let c := r.handler c
    (c.Writer.toResponse, c)
  | none =>
    if req.Method ≠ "CONNECT" ∧ req.Path ≠ "/" ∧ router.tsr req.Method req.Path = true then
      (redirect req, { c with Writer := (redirect req).toWriter })
    else
      let c := c.serveError 404 default404Body
      (c.Writer.toResponse, c)

/-- The pooled context after a sequence of requests was served one after the other. -/
def Engine.poolAfter (router : Engine) (redirect : Request → Response) (pool : Context) :
    List Request → Context
  | [] => pool
  | req :: rest => router.poolAfter redirect (router.handle redirect pool req).2 rest

/-! ## The handlers of `main.go` -/

/-- The payload of `gin01`: `gin.H{"code": 200, "message": "Welcome Server01"}`. -/
def gin01.payload : H := [("code", .int 200), ("message", .str "Welcome Server01")]

/-- The payload of `gin02`: `gin.H{"code": 200, "message": "Welcome Server02"}`. -/
def gin02.payload : H := [("code", .int 200), ("message", .str "Welcome Server02")]

/-- The function `gin01` (main.go:258). -/
def gin01 : Engine :=
  let router := New
  router.GET "/" fun c => c.JSON 200 gin01.payload

/-- The function `gin02` (main.go:267). -/
def gin02 : Engine :=
  let router := New
  router.GET "/" fun c => c.JSON 200 gin02.payload

/-- The struct `Login` of `ginModelBind`. -/
structure Login where
  User : String
  Password : String
  deriving DecidableEq, Repr

/-- The `/loginJSON` handler of `ginModelBind` (main.go:199). `ShouldBind` is the library call
`c.ShouldBind(&json)`: the bound struct, or the binding error. -/
def ginModelBind.loginJSON (ShouldBind : Context → Except Error Login) : HandlerFunc := fun c =>
  match ShouldBind c with
  | .error err => c.JSON 400 [("error", .str err)]
  | .ok json =>
    let c := c.logPrintln [json.User]
    let c := c.logPrintln [json.Password]
    if json.User ≠ "pengjj" ∧ json.Password ≠ "123" then
      c.JSON 401 [("error", .str "未授权")]
    else
      c.JSON 200 [("status", .str "登录成功")]

/-- The router of `ginModelBind` (main.go:193). -/
def ginModelBind (ShouldBind : Context → Except Error Login) : Engine :=
  let router := Default
  router.GET "/loginJSON" (ginModelBind.loginJSON ShouldBind)

/-- The `/cookie` handler of `ginCookie` (main.go:303). `Cookie` is the library call
`c.Cookie(name)`: the value read, or the error. -/
def ginCookie.cookie (Cookie : Context → String → Except Error String) : HandlerFunc := fun c =>
  let (c, cookie) :=
    match Cookie c "gin_cookie" with
    | .error err =>
      let c := c.logPrintln [err]
      let cookie := "pengjj"
      let c := c.SetCookie "gin_cookie" "test" 3600 "/" "127.0.0.1" false true
      (c, cookie)
    | .ok cookie => (c, cookie)
  c.logPrintln ["cookie: ", cookie]

/-- The router of `ginCookie` (main.go:301), the example `main` runs. -/
def ginCookie (Cookie : Context → String → Except Error String) : Engine :=
  let router := Default
  router.GET "/cookie" (ginCookie.cookie Cookie)

/-! ## The supervisor `ginStartAllServer`

The function launches two goroutines through the package-level `errgroup.Group` and joins them.
Its executions are the interleavings of the steps of the main goroutine, of the two launched
goroutines and of the servers they run. What `ListenAndServe` (package `net/http`) does is up to
the environment: its listener binds or fails to bind, its accept loop serves requests, and it
may return; the results it returns are part of the step labels.
-/

/-- A `net/http` server configuration, the fields `ginStartAllServer` sets. -/
structure Server where
  Addr : String
  Handler : Engine
  ReadTimeout : Nat
  WriteTimeout : Nat

/-- The duration `time.Second`, in nanoseconds. -/
def Second : Nat := 1000000000

/-- The value `server01` of `ginStartAllServer` (main.go:277). -/
def ginStartAllServer.server01 : Server :=
  { Addr := ":8080", Handler := gin01, ReadTimeout := 5 * Second, WriteTimeout := 10 * Second }

/-- The value `server02` of `ginStartAllServer` (main.go:283). -/
def ginStartAllServer.server02 : Server :=
  { Addr := ":8081", Handler := gin02, ReadTimeout := 5 * Second, WriteTimeout := 10 * Second }

/-- Names of the two servers, and of the tasks that run them. -/
inductive Srv where
  | server01
  | server02
  deriving DecidableEq, Repr

/-- The other server. -/
def Srv.other : Srv → Srv
  | .server01 => .server02
  | .server02 => .server01

/-- Modelled from the spec: the join primitive `errgroup.Group` behind the variable `eg`
(main.go:256), whose package `golang.org/x/sync/errgroup` is imported by `main.go` and is not
among the sources. Spec 4.2: the supervisor "waits for all launched tasks to finish", a non-nil
error a task returns "is recorded as the group's terminal error", the group "does not cancel
siblings", and (spec 3) signals "after the first are discarded (not queued, not aggregated)".
The state is the wait counter, whether an error was recorded, and the recorded error. -/
structure Group where
  wg : Nat
  errOnce : Bool
  err : Option Error
  deriving DecidableEq, Repr

/-- Modelled from the spec: the zero value of the join primitive, the initial value of `eg`. -/
def Group.zero : Group := { wg := 0, errOnce := false, err := none }

/-- Modelled from the spec: the bookkeeping of `eg.Go(f)` in the calling goroutine, one more task
to wait for. -/
def Group.add (g : Group) : Group := { g with wg := g.wg + 1 }

/-- Modelled from the spec: what the join primitive does when a launched task returns `r`. The
first non-nil error is recorded, later ones are discarded; the task no longer counts as running.
In `step` this bookkeeping is one step with the return of `ListenAndServe`; `fineStep` keeps the
two apart. -/
def Group.done (g : Group) (r : Option Error) : Group :=
  let g := match r with
    | none => g
    | some e => if g.errOnce then g else { g with errOnce := true, err := some e }
  { g with wg := g.wg - 1 }

/-- Modelled from the spec: the call `eg.Wait()`. It is blocked (`none`) while a launched task
has not returned, and returns the recorded error otherwise. -/
def Group.Wait (g : Group) : Option (Option Error) :=
  if g.wg = 0 then some g.err else none

/-- Life cycle of one server task. -/
inductive Phase where
  /-- The call of `eg.Go` for this server has not happened. -/
  | idle
  /-- The goroutine is launched, `ListenAndServe` is not yet called. -/
  | spawned
  /-- `ListenAndServe` was called and its listener is bound: the accept loop runs. -/
  | listening
  /-- `ListenAndServe` returned `r` and the goroutine ended. -/
  | stopped (r : Option Error)
  deriving DecidableEq, Repr

/-- One server task: its phase and counters of what happened to it. -/
structure Task where
  phase : Phase
  /-- Number of goroutines `eg.Go` launched for this server. -/
  launches : Nat
  /-- Number of calls of this server's `ListenAndServe`. -/
  invocations : Nat
  /-- Number of client requests this server has served. -/
  served : Nat
  deriving DecidableEq, Repr

/-- Position of the main goroutine in the body of `ginStartAllServer` (main.go:289-297). -/
inductive Main where
  /-- Before the first `eg.Go` (main.go:289). -/
  | atGo1
  /-- Before the second `eg.Go` (main.go:292). -/
  | atGo2
  /-- In `eg.Wait()` (main.go:295). -/
  | atWait
  /-- The call `eg.Wait()` returned `err`; the test `err != nil` comes next. -/
  | afterWait (err : Option Error)
  /-- The call `log.Fatal(err)` happened: `err` is logged and the process has exited. -/
  | fatal (err : Error)
  /-- The function returned without `log.Fatal`. -/
  | returned
  deriving DecidableEq, Repr

/-- State of an execution of `ginStartAllServer`. -/
structure Sys where
  main : Main
  eg : Group
  t1 : Task
  t2 : Task
  /-- History: the tasks whose goroutine has ended, with their results, in the order in which the
  join primitive took the results. -/
  finished : List (Srv × Option Error)
  deriving DecidableEq, Repr

/-- The task of a server. -/
def Sys.task (s : Sys) : Srv → Task
  | .server01 => s.t1
  | .server02 => s.t2

/-- Replaces the task of a server. -/
def Sys.setTask (s : Sys) (i : Srv) (t : Task) : Sys :=
  match i with
  | .server01 => { s with t1 := t }
  | .server02 => { s with t2 := t }

/-- The state in which `ginStartAllServer` is entered. -/
def Sys.init : Sys :=
  { main := .atGo1, eg := Group.zero,
    t1 := { phase := .idle, launches := 0, invocations := 0, served := 0 },
    t2 := { phase := .idle, launches := 0, invocations := 0, served := 0 },
    finished := [] }

/-- Steps of an execution. -/
inductive Action where
  /-- The main goroutine executes its next statement. -/
  | main
  /-- The goroutine of server `i` calls `ListenAndServe`, and the listener binds. -/
  | listen (i : Srv)
  /-- The goroutine of server `i` calls `ListenAndServe`, which fails to bind and returns `e`. -/
  | bindFail (i : Srv) (e : Error)
  /-- Server `i` accepts a client request and serves it. -/
  | serve (i : Srv)
  /-- The accept loop of server `i` ends: `ListenAndServe` returns `r`. -/
  | stop (i : Srv) (r : Option Error)
  deriving DecidableEq, Repr

/-- The process has not exited. -/
def Sys.alive (s : Sys) : Bool :=
  match s.main with
  | .fatal _ => false
  | _ => true

/-- The call `eg.Wait()` of main.go:295 has returned. -/
def Sys.waitReturned (s : Sys) : Bool :=
  match s.main with
  | .afterWait _ => true
  | .fatal _ => true
  | .returned => true
  | _ => false

/-- The launch `eg.Go(func() error { return server.ListenAndServe() })` for server `i`. -/
def Sys.go (s : Sys) (i : Srv) : Sys :=
  let s := { s with eg := s.eg.add }
  s.setTask i { s.task i with phase := .spawned, launches := (s.task i).launches + 1 }

/-- The goroutine of server `i` ends with the result `r` of `ListenAndServe`: the join primitive
takes the result. -/
def Sys.finish (s : Sys) (i : Srv) (r : Option Error) (t : Task) : Sys :=
  let s := { s with eg := s.eg.done r, finished := s.finished ++ [(i, r)] }
  s.setTask i { t with phase := .stopped r }

/-- One step; `none` when the step is not enabled in the state. -/
def step (s : Sys) : Action → Option Sys
  | .main =>
    match s.main with
    | .atGo1 => some { s.go .server01 with main := .atGo2 }
    | .atGo2 => some { s.go .server02 with main := .atWait }
    | .atWait =>
      match s.eg.Wait with
      | none => none
      | some err => some { s with main := .afterWait err }
    | .afterWait (some err) => some { s with main := .fatal err }
    | .afterWait none => some { s with main := .returned }
    | .fatal _ => none
    | .returned => none
  | .listen i =>
    if s.alive ∧ (s.task i).phase = .spawned then
      some (s.setTask i { s.task i with phase := .listening,
                                        invocations := (s.task i).invocations + 1 })
    else none
  | .bindFail i e =>
    if s.alive ∧ (s.task i).phase = .spawned then
      some (s.finish i (some e) { s.task i with invocations := (s.task i).invocations + 1 })
    else none
  | .serve i =>
    if s.alive ∧ (s.task i).phase = .listening then
      some (s.setTask i { s.task i with served := (s.task i).served + 1 })
    else none
  | .stop i r =>
    if s.alive ∧ (s.task i).phase = .listening then
      some (s.finish i r (s.task i))
    else none

/-- Runs a sequence of steps; `none` when one of them is not enabled. -/
def run (s : Sys) : List Action → Option Sys
  | [] => some s
  | a :: rest =>
    match step s a with
    | none => none
    | some s' => run s' rest

/-- Lets the main goroutine take up to `n` steps, stopping where it is blocked or done. -/
def mainSteps : Nat → Sys → Sys
  | 0, s => s
  | n + 1, s =>
    match step s .main with
    | none => s
    | some s' => mainSteps n s'

/-- Number of servers whose listener is active. -/
def Sys.activeListeners (s : Sys) : Nat :=
  (if s.t1.phase = .listening then 1 else 0) + (if s.t2.phase = .listening then 1 else 0)

/-- The first non-nil error of a history of results. -/
def firstError : List (Srv × Option Error) → Option Error
  | [] => none
  | (_, some e) :: _ => some e
  | (_, none) :: rest => firstError rest

/-- Whether the join primitive still counts the task as running: 1 between its launch and its
return, 0 otherwise. -/
def Task.pending (t : Task) : Nat :=
  match t.phase with
  | .spawned => 1
  | .listening => 1
  | _ => 0

/-- Number of calls of `ListenAndServe` a task in the given phase has made. -/
def Phase.calls : Phase → Nat
  | .idle => 0
  | .spawned => 0
  | _ => 1

/-- What holds in every state an execution of `ginStartAllServer` reaches. -/
structure Inv (s : Sys) : Prop where
  wg : s.eg.wg = s.t1.pending + s.t2.pending
  idle1 : s.t1.phase = .idle ↔ s.main = .atGo1
  idle2 : s.t2.phase = .idle ↔ (s.main = .atGo1 ∨ s.main = .atGo2)
  joined : s.waitReturned = true → s.eg.wg = 0
  once : s.eg.errOnce = s.eg.err.isSome
  err : s.eg.err = firstError s.finished
  hist : ∀ i r, (i, r) ∈ s.finished ↔ (s.task i).phase = .stopped r
  res : match s.main with
    | .afterWait r => r = s.eg.err
    | .fatal e => s.eg.err = some e
    | .returned => s.eg.err = none
    | _ => True
  launches : ∀ i, (s.task i).launches = if (s.task i).phase = .idle then 0 else 1
  calls : ∀ i, (s.task i).invocations = (s.task i).phase.calls
  served : ∀ i, 0 < (s.task i).served →
    (s.task i).phase = .listening ∨ ∃ r, (s.task i).phase = .stopped r

/-- Whether the step is a return of `ListenAndServe`. -/
def Action.isReturn : Action → Bool
  | .bindFail _ _ => true
  | .stop _ _ => true
  | _ => false

/-! ### The return of `ListenAndServe` and its recording as separate steps

In `step` a task returns and the join primitive takes its result in one step. In the program
these are two events: the closure of main.go:289-294 returns the value of `ListenAndServe`, and
afterwards the goroutine that `eg.Go` started hands the value to the group. The other task can
run in between. `fineStep` has the two events as separate steps over the same state, the same
group and the same main goroutine.
-/

/-- A state of `step` together with the results that `ListenAndServe` has returned and the join
primitive has not taken yet, and the order in which the calls of `ListenAndServe` returned. -/
structure FineSys where
  base : Sys
  /-- The result server01's `ListenAndServe` has returned, while it is not yet recorded. -/
  ret1 : Option (Option Error)
  /-- The result server02's `ListenAndServe` has returned, while it is not yet recorded. -/
  ret2 : Option (Option Error)
  /-- History: the calls of `ListenAndServe` that returned, in the order in which they returned. -/
  returned : List (Srv × Option Error)
  deriving DecidableEq, Repr

/-- The returned and not yet recorded result of a server. -/
def FineSys.ret (fs : FineSys) : Srv → Option (Option Error)
  | .server01 => fs.ret1
  | .server02 => fs.ret2

/-- Replaces the returned and not yet recorded result of a server. -/
def FineSys.setRet (fs : FineSys) (i : Srv) (x : Option (Option Error)) : FineSys :=
  match i with
  | .server01 => { fs with ret1 := x }
  | .server02 => { fs with ret2 := x }

/-- The state in which `ginStartAllServer` is entered. -/
def FineSys.init : FineSys := { base := Sys.init, ret1 := none, ret2 := none, returned := [] }

/-- Carries a step of the underlying state over. -/
def FineSys.lift (fs : FineSys) (b : Option Sys) : Option FineSys :=
  b.map fun b => { fs with base := b }

/-- Steps of an execution in which return and recording are separate. -/
inductive FineAction where
  /-- The main goroutine executes its next statement. -/
  | main
  /-- The goroutine of server `i` calls `ListenAndServe`, and the listener binds. -/
  | listen (i : Srv)
  /-- The goroutine of server `i` calls `ListenAndServe`, which fails to bind and returns `e`
  to the closure. -/
  | bindFail (i : Srv) (e : Error)
  /-- Server `i` accepts a client request and serves it. -/
  | serve (i : Srv)
  /-- The accept loop of server `i` ends: `ListenAndServe` returns `r` to the closure. -/
  | stop (i : Srv) (r : Option Error)
  /-- The join primitive takes the result the closure of server `i` returned: it records the
  error, if it is the first, and the goroutine ends. -/
  | record (i : Srv)
  deriving DecidableEq, Repr

/-- One step; `none` when the step is not enabled in the state. A server whose `ListenAndServe`
has returned neither binds nor serves any more. -/
def fineStep (fs : FineSys) : FineAction → Option FineSys
  | .main => fs.lift (step fs.base .main)
  | .listen i => if fs.ret i = none then fs.lift (step fs.base (.listen i)) else none
  | .serve i => if fs.ret i = none then fs.lift (step fs.base (.serve i)) else none
  | .bindFail i e =>
    if fs.base.alive ∧ (fs.base.task i).phase = .spawned ∧ fs.ret i = none then
      some ({ fs with returned := fs.returned ++ [(i, some e)] }.setRet i (some (some e)))
    else none
  | .stop i r =>
    if fs.base.alive ∧ (fs.base.task i).phase = .listening ∧ fs.ret i = none then
      some ({ fs with returned := fs.returned ++ [(i, r)] }.setRet i (some r))
    else none
  | .record i =>
    match fs.ret i, (fs.base.task i).phase with
    | some (some e), .spawned => (fs.setRet i none).lift (step fs.base (.bindFail i e))
    | some r, .listening => (fs.setRet i none).lift (step fs.base (.stop i r))
    | _, _ => none

/-- Runs a sequence of steps; `none` when one of them is not enabled. -/
def fineRun (fs : FineSys) : List FineAction → Option FineSys
  | [] => some fs
  | a :: rest =>
    match fineStep fs a with
    | none => none
    | some fs' => fineRun fs' rest

/-- The fresh context of a request. -/
def freshContext (req : Request) (log : List String) : Context :=
  { Request := req, Writer := freshWriter, log := log }

/-- The response of `c.JSON(code, obj)` on a fresh writer, for a status that allows a body. -/
def jsonResponse (code : Nat) (obj : H) : Response :=
  { status := code, header := [("Content-Type", "application/json; charset=utf-8")],
    cookies := [], body := marshal obj }

/-- The response with the given status and JSON body that `c.JSON` produces on a fresh writer. -/
def statusJSON (status : Nat) (body : String) : Response :=
  { status := status, header := [("Content-Type", "application/json; charset=utf-8")],
    cookies := [], body := body }

/-! ## Facts about the handlers -/

theorem marshal_gin01 :
    marshal gin01.payload = "\x7b\"code\":200,\"message\":\"Welcome Server01\"\x7d" := by
  decide

theorem marshal_gin02 :
    marshal gin02.payload = "\x7b\"code\":200,\"message\":\"Welcome Server02\"\x7d" := by
  decide

theorem JSON_fresh (c : Context) (code : Nat) (obj : H) (hw : c.Writer = freshWriter)
    (hc : 0 < code) (hb : bodyAllowedForStatus code = true) :
    (c.JSON code obj).Writer.toResponse = jsonResponse code obj ∧ (c.JSON code obj).log = c.log := by
  unfold Context.JSON
  rw [hb, hw]
  by_cases h : (200 : Nat) = code
  · subst h
    simp [ResponseWriter.WriteHeader, ResponseWriter.writeContentType, freshWriter,
      ResponseWriter.toResponse, jsonResponse]
  · have h' : ¬ code = 200 := fun e => h e.symm
    simp [ResponseWriter.WriteHeader, ResponseWriter.writeContentType, freshWriter,
      ResponseWriter.toResponse, jsonResponse, hc, h, h']

theorem ServeHTTP_single (method path : String) (handler : HandlerFunc) (log : List String)
    (req : Request) (hm : req.Method = method) (hp : req.Path = path) :
    Engine.ServeHTTP [{ method := method, path := path, handler := handler }] log req =
      some ((handler (freshContext req log)).Writer.toResponse,
            (handler (freshContext req log)).log) := by
  simp [Engine.ServeHTTP, List.find?, hm, hp, freshContext]

theorem gin01_serve (log : List String) (req : Request) (hm : req.Method = "GET")
    (hp : req.Path = "/") :
    gin01.ServeHTTP log req = some (jsonResponse 200 gin01.payload, log) := by
  have h := JSON_fresh (freshContext req log) 200 gin01.payload rfl (by decide) (by decide)
  have e : gin01 = [{ method := "GET", path := "/", handler := fun c => c.JSON 200 gin01.payload }] :=
    rfl
  rw [e, ServeHTTP_single "GET" "/" _ log req hm hp, h.1, h.2]
  rfl

theorem gin02_serve (log : List String) (req : Request) (hm : req.Method = "GET")
    (hp : req.Path = "/") :
    gin02.ServeHTTP log req = some (jsonResponse 200 gin02.payload, log) := by
  have h := JSON_fresh (freshContext req log) 200 gin02.payload rfl (by decide) (by decide)
  have e : gin02 = [{ method := "GET", path := "/", handler := fun c => c.JSON 200 gin02.payload }] :=
    rfl
  rw [e, ServeHTTP_single "GET" "/" _ log req hm hp, h.1, h.2]
  rfl

/-- C1: every GET request to path "/" gets status 200 and the body
{"code":200,"message":"Welcome Server01"} from the handler `gin01` builds, and status 200 and the
body {"code":200,"message":"Welcome Server02"} from the handler `gin02` builds;
`ginStartAllServer` gives the first handler to the server with address ":8080" and the second to
the server with address ":8081". -/
theorem C1_welcome (log : List String) (req : Request) (hm : req.Method = "GET")
    (hp : req.Path = "/") :
    gin01.ServeHTTP log req =
        some (statusJSON 200 "\x7b\"code\":200,\"message\":\"Welcome Server01\"\x7d", log) ∧
    gin02.ServeHTTP log req =
        some (statusJSON 200 "\x7b\"code\":200,\"message\":\"Welcome Server02\"\x7d", log) ∧
    ginStartAllServer.server01.Addr = ":8080" ∧
    ginStartAllServer.server01.Handler.ServeHTTP log req = gin01.ServeHTTP log req ∧
    ginStartAllServer.server02.Addr = ":8081" ∧
    ginStartAllServer.server02.Handler.ServeHTTP log req = gin02.ServeHTTP log req := by
  refine ⟨?_, ?_, rfl, rfl, rfl, rfl⟩
  · rw [gin01_serve log req hm hp, jsonResponse, marshal_gin01]; rfl
  · rw [gin02_serve log req hm hp, jsonResponse, marshal_gin02]; rfl

/-- C1 at the request `GET /` without query, headers or body. -/
theorem C1_welcome_witness :
    gin01.ServeHTTP [] ⟨"GET", "/", "", [], ""⟩ =
        some (statusJSON 200 "\x7b\"code\":200,\"message\":\"Welcome Server01\"\x7d", []) ∧
    gin02.ServeHTTP [] ⟨"GET", "/", "", [], ""⟩ =
        some (statusJSON 200 "\x7b\"code\":200,\"message\":\"Welcome Server02\"\x7d", []) :=
  ⟨(C1_welcome [] ⟨"GET", "/", "", [], ""⟩ rfl rfl).1,
   (C1_welcome [] ⟨"GET", "/", "", [], ""⟩ rfl rfl).2.1⟩

theorem loginJSON_serve (ShouldBind : Context → Except Error Login) (log : List String)
    (req : Request) (hm : req.Method = "GET") (hp : req.Path = "/loginJSON") :
    (ginModelBind ShouldBind).ServeHTTP log req =
      some ((ginModelBind.loginJSON ShouldBind (freshContext req log)).Writer.toResponse,
            (ginModelBind.loginJSON ShouldBind (freshContext req log)).log) := by
  have e : ginModelBind ShouldBind =
      [{ method := "GET", path := "/loginJSON", handler := ginModelBind.loginJSON ShouldBind }] :=
    rfl
  rw [e, ServeHTTP_single "GET" "/loginJSON" _ log req hm hp]

theorem loginJSON_ok (ShouldBind : Context → Except Error Login) (log : List String)
    (req : Request) (json : Login) (hb : ShouldBind (freshContext req log) = .ok json) :
    (ginModelBind.loginJSON ShouldBind (freshContext req log)).Writer.toResponse =
      if json.User ≠ "pengjj" ∧ json.Password ≠ "123" then
        statusJSON 401 "\x7b\"error\":\"未授权\"\x7d"
      else statusJSON 200 "\x7b\"status\":\"登录成功\"\x7d" := by
  have m401 : marshal [("error", .str "未授权")] = "\x7b\"error\":\"未授权\"\x7d" := by decide
  have m200 : marshal [("status", .str "登录成功")] = "\x7b\"status\":\"登录成功\"\x7d" := by decide
  unfold ginModelBind.loginJSON
  simp only [hb]
  split
  · rw [(JSON_fresh _ 401 _ rfl (by decide) (by decide)).1, jsonResponse, m401]; rfl
  · rw [(JSON_fresh _ 200 _ rfl (by decide) (by decide)).1, jsonResponse, m200]; rfl

/-- C9: in the `/loginJSON` handler of `ginModelBind`, when binding succeeds the response is
401 {"error":"未授权"} exactly when the bound user differs from "pengjj" and the bound password
differs from "123"; in every other case it is 200 {"status":"登录成功"}: so for user "pengjj" with
any password and for password "123" with any user. -/
theorem C9_loginJSON (ShouldBind : Context → Except Error Login) (log : List String)
    (req : Request) (json : Login) (hm : req.Method = "GET") (hp : req.Path = "/loginJSON")
    (hb : ShouldBind (freshContext req log) = .ok json) :
    ∃ resp log', (ginModelBind ShouldBind).ServeHTTP log req = some (resp, log') ∧
      (resp = statusJSON 401 "\x7b\"error\":\"未授权\"\x7d" ↔
        (json.User ≠ "pengjj" ∧ json.Password ≠ "123")) ∧
      (¬ (json.User ≠ "pengjj" ∧ json.Password ≠ "123") →
        resp = statusJSON 200 "\x7b\"status\":\"登录成功\"\x7d") ∧
      (json.User = "pengjj" → resp = statusJSON 200 "\x7b\"status\":\"登录成功\"\x7d") ∧
      (json.Password = "123" → resp = statusJSON 200 "\x7b\"status\":\"登录成功\"\x7d") := by
  refine ⟨_, _, loginJSON_serve ShouldBind log req hm hp, ?_⟩
  rw [loginJSON_ok ShouldBind log req json hb]
  have hne : statusJSON 200 "\x7b\"status\":\"登录成功\"\x7d" ≠
      statusJSON 401 "\x7b\"error\":\"未授权\"\x7d" := by decide
  by_cases h : json.User ≠ "pengjj" ∧ json.Password ≠ "123"
  · rw [if_pos h]
    exact ⟨⟨fun _ => h, fun _ => rfl⟩, fun n => absurd h n, fun u => absurd u h.1,
      fun q => absurd q h.2⟩
  · rw [if_neg h]
    refine ⟨⟨fun e => absurd e hne, fun c => absurd c h⟩, fun _ => rfl, fun _ => rfl, fun _ => rfl⟩

/-- C9 at a request that binds to user "pengjj" with the wrong password "wrong": the answer
is 200. -/
theorem C9_loginJSON_witness :
    ∃ resp log', (ginModelBind fun _ => .ok ⟨"pengjj", "wrong"⟩).ServeHTTP []
        ⟨"GET", "/loginJSON", "user=pengjj&password=wrong", [], ""⟩ = some (resp, log') ∧
      resp = statusJSON 200 "\x7b\"status\":\"登录成功\"\x7d" := by
  obtain ⟨resp, log', h, _, _, h3, _⟩ := C9_loginJSON (fun _ => .ok ⟨"pengjj", "wrong"⟩) []
    ⟨"GET", "/loginJSON", "user=pengjj&password=wrong", [], ""⟩ ⟨"pengjj", "wrong"⟩ rfl rfl rfl
  exact ⟨resp, log', h, h3 rfl⟩

theorem cookie_serve (Cookie : Context → String → Except Error String) (log : List String)
    (req : Request) (hm : req.Method = "GET") (hp : req.Path = "/cookie") :
    (ginCookie Cookie).ServeHTTP log req =
      some ((ginCookie.cookie Cookie (freshContext req log)).Writer.toResponse,
            (ginCookie.cookie Cookie (freshContext req log)).log) := by
  have e : ginCookie Cookie =
      [{ method := "GET", path := "/cookie", handler := ginCookie.cookie Cookie }] := rfl
  rw [e, ServeHTTP_single "GET" "/cookie" _ log req hm hp]

/-- C10: in the `/cookie` handler of `ginCookie`, if reading the cookie "gin_cookie" fails, the
handler sets exactly one cookie (name "gin_cookie", value "test", max-age 3600, path "/", domain
"127.0.0.1", not secure, httpOnly) and the value it logs as the cookie is "pengjj"; if reading
succeeds, the handler sets no cookie and logs the value read. -/
theorem C10_cookie (Cookie : Context → String → Except Error String) (log : List String)
    (req : Request) (hm : req.Method = "GET") (hp : req.Path = "/cookie") :
    ∃ resp log', (ginCookie Cookie).ServeHTTP log req = some (resp, log') ∧
      (∀ err, Cookie (freshContext req log) "gin_cookie" = .error err →
        resp.cookies = [{ Name := "gin_cookie", Value := "test", MaxAge := 3600, Path := "/",
                          Domain := "127.0.0.1", Secure := false, HttpOnly := true }] ∧
        log' = log ++ [Sprintln [err], Sprintln ["cookie: ", "pengjj"]]) ∧
      (∀ value, Cookie (freshContext req log) "gin_cookie" = .ok value →
        resp.cookies = [] ∧ log' = log ++ [Sprintln ["cookie: ", value]]) := by
  refine ⟨_, _, cookie_serve Cookie log req hm hp, ?_, ?_⟩
  · intro err h
    have q : QueryEscape "test" = "test" := by decide
    unfold ginCookie.cookie
    simp only [h]
    simp [Context.logPrintln, Context.SetCookie, ResponseWriter.toResponse, freshContext,
      freshWriter, q]
  · intro value h
    unfold ginCookie.cookie
    simp only [h]
    simp [Context.logPrintln, ResponseWriter.toResponse, freshContext, freshWriter]

/-- C10 at a request without cookies (reading fails with the error of `net/http`) and at a request
that carries the cookie value "abc". -/
theorem C10_cookie_witness :
    (∃ resp log', (ginCookie fun _ _ => .error "http: named cookie not present").ServeHTTP []
        ⟨"GET", "/cookie", "", [], ""⟩ = some (resp, log') ∧
      resp.cookies = [{ Name := "gin_cookie", Value := "test", MaxAge := 3600, Path := "/",
                        Domain := "127.0.0.1", Secure := false, HttpOnly := true }] ∧
      log' = ["http: named cookie not present\n", "cookie:  pengjj\n"]) ∧
    (∃ resp log', (ginCookie fun _ _ => .ok "abc").ServeHTTP []
        ⟨"GET", "/cookie", "", [("Cookie", "gin_cookie=abc")], ""⟩ = some (resp, log') ∧
      resp.cookies = [] ∧ log' = ["cookie:  abc\n"]) := by
  constructor
  · obtain ⟨resp, log', h, h1, _⟩ := C10_cookie (fun _ _ => .error "http: named cookie not present")
      [] ⟨"GET", "/cookie", "", [], ""⟩ rfl rfl
    exact ⟨resp, log', h, (h1 _ rfl).1, by rw [(h1 _ rfl).2]; decide⟩
  · obtain ⟨resp, log', h, _, h2⟩ := C10_cookie (fun _ _ => .ok "abc")
      [] ⟨"GET", "/cookie", "", [("Cookie", "gin_cookie=abc")], ""⟩ rfl rfl
    exact ⟨resp, log', h, (h2 _ rfl).1, by rw [(h2 _ rfl).2]; decide⟩

/-- Maps with the same entries, whose keys are distinct, are written in the same order. -/
theorem sortedEntries_perm (h h' : H) (hp : h.Perm h') (hn : (h'.map Prod.fst).Nodup) :
    sortedEntries h = sortedEntries h' := by
  haveI : IsTotal (String × JVal) keyLE := ⟨fun a b => le_total a.1.toList b.1.toList⟩
  haveI : IsTrans (String × JVal) keyLE :=
    ⟨fun a b c (x : a.1.toList ≤ b.1.toList) (y : b.1.toList ≤ c.1.toList) => le_trans x y⟩
  haveI : IsAntisymm (String × JVal) (fun a b => a.1.toList < b.1.toList) :=
    ⟨fun a b x y => absurd y (lt_asymm x)⟩
  have key : ∀ l : H, l.Perm h' →
      List.Sorted (fun a b => a.1.toList < b.1.toList) (l.insertionSort keyLE) := by
    intro l hl
    have hs : List.Sorted keyLE (l.insertionSort keyLE) := List.sorted_insertionSort keyLE l
    have hperm : (l.insertionSort keyLE).Perm h' := (List.perm_insertionSort keyLE l).trans hl
    have hd : List.Pairwise (fun a b : String × JVal => a.1 ≠ b.1) h' := List.pairwise_map.mp hn
    have hd' : List.Pairwise (fun a b : String × JVal => a.1 ≠ b.1) (l.insertionSort keyLE) :=
      (hperm.pairwise_iff (fun {a b} (x : a.1 ≠ b.1) => x.symm)).mpr hd
    refine (List.Pairwise.and hs hd').imp ?_
    intro a b ⟨x, y⟩
    have x' : a.1.toList ≤ b.1.toList := x
    refine lt_of_le_of_ne x' ?_
    intro e
    exact y (String.ext e)
  have p : (h.insertionSort keyLE).Perm (h'.insertionSort keyLE) :=
    ((List.perm_insertionSort keyLE h).trans hp).trans (List.perm_insertionSort keyLE h').symm
  exact List.eq_of_perm_of_sorted p (key h hp) (key h' (List.Perm.refl h'))

theorem marshal_perm (h h' : H) (hp : h.Perm h') (hn : (h'.map Prod.fst).Nodup) :
    marshal h = marshal h' := by
  unfold marshal
  rw [sortedEntries_perm h h' hp hn]

/-- The response of a router with the single route `GET /` that answers `c.JSON(200, obj)`:
the payload on `GET /`, and for every other request a trailing-slash redirect or the 404 page;
in no case does the state in which the pooled context was left play a part. -/
theorem handle_single (obj : H) (redirect : Request → Response) (pool : Context)
    (req : Request) :
    (Engine.handle [{ method := "GET", path := "/", handler := fun c => c.JSON 200 obj }]
        redirect pool req).1 =
      if req.Method = "GET" ∧ req.Path = "/" then jsonResponse 200 obj
      else if req.Method ≠ "CONNECT" ∧ req.Path ≠ "/" ∧
          Engine.tsr [{ method := "GET", path := "/", handler := fun c => c.JSON 200 obj }]
            req.Method req.Path = true then redirect req
      else { status := 404, header := [("Content-Type", "text/plain")], cookies := [],
             body := "404 page not found" } := by
  by_cases h : req.Method = "GET" ∧ req.Path = "/"
  · have h' : "GET" = req.Method ∧ "/" = req.Path := ⟨h.1.symm, h.2.symm⟩
    rw [if_pos h]
    have hj := JSON_fresh (pool.reset req) 200 obj rfl (by decide) (by decide)
    simp only [Engine.handle, List.find?, h', and_self, decide_True]
    exact hj.1
  · have h' : ¬ ("GET" = req.Method ∧ "/" = req.Path) := fun ⟨a, b⟩ => h ⟨a.symm, b.symm⟩
    rw [if_neg h]
    simp only [Engine.handle, List.find?, h', decide_False]
    split
    · rfl
    · rfl

/-- C6: for the handlers `gin01` and `gin02` build, the response to a request (status, headers,
body) is the same whatever requests were served before it and whatever state they left the
pooled context and the logger in, so two identical GET requests get byte-identical responses; and
the body does not depend on the order in which the entries of the payload map are enumerated. -/
theorem C6_idempotent (redirect : Request → Response) (pool1 pool2 : Context)
    (pre1 pre2 : List Request) (req : Request) :
    (gin01.handle redirect (gin01.poolAfter redirect pool1 pre1) req).1 =
      (gin01.handle redirect (gin01.poolAfter redirect pool2 pre2) req).1 ∧
    (gin02.handle redirect (gin02.poolAfter redirect pool1 pre1) req).1 =
      (gin02.handle redirect (gin02.poolAfter redirect pool2 pre2) req).1 ∧
    (∀ h : H, h.Perm gin01.payload → marshal h = marshal gin01.payload) ∧
    (∀ h : H, h.Perm gin02.payload → marshal h = marshal gin02.payload) := by
  have e1 : gin01 =
      [{ method := "GET", path := "/", handler := fun c => c.JSON 200 gin01.payload }] := rfl
  have e2 : gin02 =
      [{ method := "GET", path := "/", handler := fun c => c.JSON 200 gin02.payload }] := rfl
  refine ⟨?_, ?_, ?_, ?_⟩
  · rw [e1, handle_single, handle_single]
  · rw [e2, handle_single, handle_single]
  · intro h hp
    exact marshal_perm h gin01.payload hp (by decide)
  · intro h hp
    exact marshal_perm h gin02.payload hp (by decide)

/-- C6 at the request `GET /`, served once from a pooled context that an earlier request left
with status 500 and a body, and once after a `POST /x`, a `GET /nowhere` and a `GET /`; and at
the payload of `gin01` enumerated in the opposite order. -/
theorem C6_idempotent_witness :
    (gin01.handle (fun _ => ⟨301, [("Location", "/")], [], ""⟩)
        ⟨⟨"GET", "/old", "", [], ""⟩, ⟨500, true, [("Content-Type", "text/html")], [], "oops"⟩,
          ["earlier\n"]⟩
        ⟨"GET", "/", "", [], ""⟩).1 =
      (gin01.handle (fun _ => ⟨301, [("Location", "/")], [], ""⟩)
        (gin01.poolAfter (fun _ => ⟨301, [("Location", "/")], [], ""⟩)
          ⟨⟨"GET", "/", "", [], ""⟩, freshWriter, []⟩
          [⟨"POST", "/x", "", [], "b"⟩, ⟨"GET", "/nowhere", "", [], ""⟩, ⟨"GET", "/", "", [], ""⟩])
        ⟨"GET", "/", "", [], ""⟩).1 ∧
    marshal [("message", .str "Welcome Server01"), ("code", .int 200)] = marshal gin01.payload :=
  ⟨(C6_idempotent (fun _ => ⟨301, [("Location", "/")], [], ""⟩)
      ⟨⟨"GET", "/old", "", [], ""⟩, ⟨500, true, [("Content-Type", "text/html")], [], "oops"⟩,
        ["earlier\n"]⟩
      ⟨⟨"GET", "/", "", [], ""⟩, freshWriter, []⟩ []
      [⟨"POST", "/x", "", [], "b"⟩, ⟨"GET", "/nowhere", "", [], ""⟩, ⟨"GET", "/", "", [], ""⟩]
      ⟨"GET", "/", "", [], ""⟩).1,
   (C6_idempotent (fun _ => ⟨301, [("Location", "/")], [], ""⟩)
      ⟨⟨"GET", "/", "", [], ""⟩, freshWriter, []⟩ ⟨⟨"GET", "/", "", [], ""⟩, freshWriter, []⟩
      [] [] ⟨"GET", "/", "", [], ""⟩).2.2.1 _ (List.Perm.swap _ _ [])⟩

/-! ## Facts about the supervisor -/

theorem firstError_append (l : List (Srv × Option Error)) (i : Srv) (r : Option Error) :
    firstError (l ++ [(i, r)]) = match firstError l with
      | some e => some e
      | none => r := by
  induction l with
  | nil => cases r <;> simp [firstError]
  | cons a l ih =>
    obtain ⟨j, q⟩ := a
    cases q with
    | none => simpa [firstError] using ih
    | some e => simp [firstError]

theorem inv_init : Inv Sys.init := by
  constructor <;> simp [Sys.init, Group.zero, Task.pending, Sys.waitReturned, firstError]
  · intro i; cases i <;> simp [Sys.task]
  · intro i; cases i <;> simp [Sys.task]
  · intro i; cases i <;> simp [Sys.task, Phase.calls]
  · intro i; cases i <;> simp [Sys.task]

theorem forall_srv (P : Srv → Prop) : (∀ i, P i) ↔ P .server01 ∧ P .server02 :=
  ⟨fun h => ⟨h _, h _⟩, fun h i => by cases i; exact h.1; exact h.2⟩

theorem inv_main (s s' : Sys) (h : Inv s) (hs : step s .main = some s') : Inv s' := by
  obtain ⟨main, ⟨wg, once, err⟩, ⟨p1, l1, n1, v1⟩, ⟨p2, l2, n2, v2⟩, fin⟩ := s
  obtain ⟨hwg, hi1, hi2, hj, ho, he, hh, hr, hl, hc, hv⟩ := h
  simp only [forall_srv, Sys.task] at hl hc hv hh
  simp only [Sys.task] at hwg hi1 hi2 hj ho he hr
  cases main with
  | atGo1 =>
    simp only [step, Sys.go, Sys.setTask, Sys.task, Group.add, Option.some.injEq] at hs
    subst hs
    simp at hi1 hi2
    subst hi1 hi2
    constructor
    all_goals simp only [forall_srv, Sys.task]
    all_goals simp [Task.pending, Phase.calls, Sys.waitReturned] at hwg hl hc hv hh ⊢
    all_goals first | done | omega | tauto
  | atGo2 =>
    simp only [step, Sys.go, Sys.setTask, Sys.task, Group.add, Option.some.injEq] at hs
    subst hs
    simp at hi1 hi2
    subst hi2
    constructor
    all_goals simp only [forall_srv, Sys.task]
    all_goals simp [Task.pending, Phase.calls, Sys.waitReturned] at hwg hl hc hv hh ⊢
    all_goals first | done | omega | tauto
  | atWait =>
    simp only [step, Group.Wait] at hs
    split at hs
    · simp at hs
    · rename_i err' hw
      simp at hw hs
      subst hs
      obtain ⟨hw0, hw1⟩ := hw
      subst hw0 hw1
      simp at hi1 hi2
      constructor
      all_goals simp only [forall_srv, Sys.task]
      all_goals simp [Task.pending, Phase.calls, Sys.waitReturned] at hwg hl hc hv hh ⊢
      all_goals first | done | omega | tauto
  | afterWait r =>
    cases r with
    | none =>
      simp only [step, Option.some.injEq] at hs
      subst hs
      simp at hi1 hi2
      simp [Sys.waitReturned] at hj
      constructor
      all_goals simp only [forall_srv, Sys.task]
      all_goals simp [Task.pending, Phase.calls, Sys.waitReturned] at hwg hl hc hv hh hr ⊢
      all_goals first | done | omega | tauto
    | some e =>
      simp only [step, Option.some.injEq] at hs
      subst hs
      simp at hi1 hi2
      simp [Sys.waitReturned] at hj
      constructor
      all_goals simp only [forall_srv, Sys.task]
      all_goals simp [Task.pending, Phase.calls, Sys.waitReturned] at hwg hl hc hv hh hr ⊢
      all_goals first | done | omega | tauto
  | fatal e => simp [step] at hs
  | returned => simp [step] at hs

theorem alive_not_returned (s : Sys) (h : Inv s) (i : Srv) (hp : (s.task i).pending = 1) :
    s.waitReturned = false := by
  cases hw : s.waitReturned with
  | false => rfl
  | true =>
    have h0 := h.joined hw
    have h1 := h.wg
    cases i <;> simp only [Sys.task] at hp <;> omega

theorem inv_listen (s s' : Sys) (i : Srv) (h : Inv s) (hs : step s (.listen i) = some s') :
    Inv s' := by
  obtain ⟨main, ⟨wg, once, err⟩, ⟨p1, l1, n1, v1⟩, ⟨p2, l2, n2, v2⟩, fin⟩ := s
  obtain ⟨hwg, hi1, hi2, hj, ho, he, hh, hr, hl, hc, hv⟩ := h
  simp only [forall_srv, Sys.task] at hl hc hv hh
  simp only [Sys.task] at hwg hi1 hi2 hj ho he hr
  cases i
  all_goals
    simp only [step, Sys.setTask, Sys.task] at hs
    split at hs
    · rename_i hcond
      simp only [Option.some.injEq] at hs
      subst hs
      obtain ⟨_, hp⟩ := hcond
      try simp only at hp
      subst hp
      constructor
      all_goals simp only [forall_srv, Sys.task]
      all_goals simp [Task.pending, Phase.calls, Sys.waitReturned] at hwg hl hc hv hh hi1 hi2 hj ⊢
      all_goals first | done | omega | tauto
    · simp at hs

theorem inv_serve (s s' : Sys) (i : Srv) (h : Inv s) (hs : step s (.serve i) = some s') :
    Inv s' := by
  obtain ⟨main, ⟨wg, once, err⟩, ⟨p1, l1, n1, v1⟩, ⟨p2, l2, n2, v2⟩, fin⟩ := s
  obtain ⟨hwg, hi1, hi2, hj, ho, he, hh, hr, hl, hc, hv⟩ := h
  simp only [forall_srv, Sys.task] at hl hc hv hh
  simp only [Sys.task] at hwg hi1 hi2 hj ho he hr
  cases i
  all_goals
    simp only [step, Sys.setTask, Sys.task] at hs
    split at hs
    · rename_i hcond
      simp only [Option.some.injEq] at hs
      subst hs
      obtain ⟨_, hp⟩ := hcond
      try simp only at hp
      subst hp
      constructor
      all_goals simp only [forall_srv, Sys.task]
      all_goals simp [Task.pending, Phase.calls, Sys.waitReturned] at hwg hl hc hv hh hi1 hi2 hj ⊢
      all_goals first | done | omega | tauto
    · simp at hs

theorem inv_finish (s : Sys) (i : Srv) (r : Option Error) (t : Task) (h : Inv s)
    (hp : (s.task i).pending = 1) (hl : t.launches = 1) (hc : t.invocations = 1) :
    Inv (s.finish i r t) := by
  have hnw := alive_not_returned s h i hp
  obtain ⟨main, ⟨wg, once, err⟩, ⟨p1, l1, n1, v1⟩, ⟨p2, l2, n2, v2⟩, fin⟩ := s
  obtain ⟨ph, tl, tn, tv⟩ := t
  obtain ⟨hwg, hi1, hi2, hj, ho, he, hh, hr, hl', hc', hv⟩ := h
  simp only [forall_srv, Sys.task] at hl' hc' hv hh
  simp only [Sys.task] at hwg hi1 hi2 hj ho he hr
  simp only at hl hc
  subst hl hc
  have herr : (Group.done ⟨wg, once, err⟩ r).err = firstError (fin ++ [(i, r)]) ∧
      (Group.done ⟨wg, once, err⟩ r).errOnce = (Group.done ⟨wg, once, err⟩ r).err.isSome ∧
      (Group.done ⟨wg, once, err⟩ r).wg = wg - 1 := by
    rw [firstError_append, ← he]
    cases r <;> cases err <;> simp at ho <;> subst ho <;> simp [Group.done]
  obtain ⟨e1, e2, e3⟩ := herr
  cases i
  all_goals
    simp only [Sys.task] at hp
    simp only [Sys.finish, Sys.setTask]
    constructor
    all_goals simp only [forall_srv, Sys.task]
    · rw [e3]; simp [Task.pending] at hwg hp ⊢; omega
    · cases main <;> simp [Sys.waitReturned] at hnw <;> simp [Task.pending] at hi1 hi2 hp ⊢ <;>
        first | done | tauto | (subst hi1; simp at hp)
    · simp [Task.pending] at hi2 hp ⊢
      first
        | exact hi2
        | (refine ⟨fun hm => ?_, fun hm => ?_⟩ <;>
            (have hq := hi2.mpr (by simp [hm]); subst hq; simp at hp))
    · intro hw; simp [Sys.waitReturned] at hw hnw; rw [hw] at hnw; simp at hnw
    · exact e2
    · exact e1
    · simp [Task.pending] at hh hp ⊢
      refine ⟨?_, ?_⟩ <;> intro q <;>
        first
          | exact hh.1 q
          | exact hh.2 q
          | (constructor
             · intro hq
               rcases hq with hq | hq
               · have := (hh.1 q).mp hq; rw [this] at hp; simp at hp
               · exact hq.symm
             · intro hq; exact Or.inr hq.symm)
          | (constructor
             · intro hq
               rcases hq with hq | hq
               · have := (hh.2 q).mp hq; rw [this] at hp; simp at hp
               · exact hq.symm
             · intro hq; exact Or.inr hq.symm)
    · cases main <;> simp [Sys.waitReturned] at hnw <;> trivial
    · simp at hl' ⊢; tauto
    · simp [Phase.calls] at hc' ⊢; tauto
    · simp at hv ⊢; tauto

theorem inv_bindFail (s s' : Sys) (i : Srv) (e : Error) (h : Inv s)
    (hs : step s (.bindFail i e) = some s') : Inv s' := by
  simp only [step] at hs
  split at hs
  · rename_i hcond
    simp only [Option.some.injEq] at hs
    subst hs
    have hl := h.launches i
    have hc := h.calls i
    rw [hcond.2] at hl hc
    refine inv_finish s i (some e) _ h ?_ ?_ ?_
    · simp [Task.pending, hcond.2]
    · simpa using hl
    · simp [hc, Phase.calls]
  · simp at hs

theorem inv_stop (s s' : Sys) (i : Srv) (r : Option Error) (h : Inv s)
    (hs : step s (.stop i r) = some s') : Inv s' := by
  simp only [step] at hs
  split at hs
  · rename_i hcond
    simp only [Option.some.injEq] at hs
    subst hs
    have hl := h.launches i
    have hc := h.calls i
    rw [hcond.2] at hl hc
    refine inv_finish s i r _ h ?_ ?_ ?_
    · simp [Task.pending, hcond.2]
    · simpa using hl
    · simp [hc, Phase.calls]
  · simp at hs

theorem inv_step (s s' : Sys) (a : Action) (h : Inv s) (hs : step s a = some s') : Inv s' := by
  cases a with
  | main => exact inv_main s s' h hs
  | listen i => exact inv_listen s s' i h hs
  | bindFail i e => exact inv_bindFail s s' i e h hs
  | serve i => exact inv_serve s s' i h hs
  | stop i r => exact inv_stop s s' i r h hs

theorem inv_run (trace : List Action) (s s' : Sys) (h : Inv s) (hs : run s trace = some s') :
    Inv s' := by
  induction trace generalizing s with
  | nil =>
    simp only [run, Option.some.injEq] at hs
    subst hs
    exact h
  | cons a rest ih =>
    simp only [run] at hs
    split at hs
    · simp at hs
    · rename_i s1 h1
      exact ih s1 (inv_step s s1 a h h1) hs

theorem inv_reachable (trace : List Action) (s : Sys) (hs : run Sys.init trace = some s) :
    Inv s :=
  inv_run trace Sys.init s inv_init hs

theorem firstError_eq_none (l : List (Srv × Option Error)) :
    firstError l = none ↔ ∀ i r, (i, r) ∈ l → r = none := by
  induction l with
  | nil => simp [firstError]
  | cons a l ih =>
    obtain ⟨j, q⟩ := a
    cases q with
    | none =>
      simp only [firstError, ih, List.mem_cons, Prod.mk.injEq]
      constructor
      · intro h i r hm
        rcases hm with hm | hm
        · exact hm.2
        · exact h i r hm
      · intro h i r hm
        exact h i r (Or.inr hm)
    | some e =>
      simp only [firstError, List.mem_cons, Prod.mk.injEq]
      constructor
      · intro h; cases h
      · intro h
        have := h j (some e) (Or.inl ⟨rfl, rfl⟩)
        cases this

theorem firstError_mem (l : List (Srv × Option Error)) (e : Error) (h : firstError l = some e) :
    ∃ i, (i, some e) ∈ l := by
  induction l with
  | nil => simp [firstError] at h
  | cons a l ih =>
    obtain ⟨j, q⟩ := a
    cases q with
    | none =>
      obtain ⟨i, hi⟩ := ih (by simpa [firstError] using h)
      exact ⟨i, List.mem_cons_of_mem _ hi⟩
    | some e' =>
      simp only [firstError, Option.some.injEq] at h
      subst h
      exact ⟨j, List.mem_cons_self _ _⟩

/-- The recorded error when both tasks have returned: nil exactly when both returned nil,
otherwise the error one of them returned. -/
theorem err_of_stopped (s : Sys) (h : Inv s) (r1 r2 : Option Error)
    (h1 : s.t1.phase = .stopped r1) (h2 : s.t2.phase = .stopped r2) :
    (s.eg.err = none ↔ r1 = none ∧ r2 = none) ∧
    (∀ e, s.eg.err = some e → r1 = some e ∨ r2 = some e) := by
  have m1 : (Srv.server01, r1) ∈ s.finished := (h.hist .server01 r1).mpr h1
  have m2 : (Srv.server02, r2) ∈ s.finished := (h.hist .server02 r2).mpr h2
  constructor
  · rw [h.err, firstError_eq_none]
    constructor
    · intro hall
      exact ⟨hall _ _ m1, hall _ _ m2⟩
    · intro hn i r hm
      have hp := (h.hist i r).mp hm
      cases i
      · simp only [Sys.task] at hp
        rw [h1] at hp
        cases hp
        exact hn.1
      · simp only [Sys.task] at hp
        rw [h2] at hp
        cases hp
        exact hn.2
  · intro e he
    rw [h.err] at he
    obtain ⟨i, hi⟩ := firstError_mem _ e he
    have hp := (h.hist i (some e)).mp hi
    cases i
    · simp only [Sys.task] at hp
      rw [h1] at hp
      cases hp
      exact Or.inl rfl
    · simp only [Sys.task] at hp
      rw [h2] at hp
      cases hp
      exact Or.inr rfl

/-- Once both tasks have returned, the main goroutine gets through `eg.Wait()` and the test that
follows it: it ends in `log.Fatal` with the recorded error, or returns when none was recorded. -/
theorem main_of_stopped (s : Sys) (h : Inv s) (r1 r2 : Option Error)
    (h1 : s.t1.phase = .stopped r1) (h2 : s.t2.phase = .stopped r2) :
    (mainSteps 2 s).main = match s.eg.err with
      | none => .returned
      | some e => .fatal e := by
  obtain ⟨main, ⟨wg, once, err⟩, ⟨p1, l1, n1, v1⟩, ⟨p2, l2, n2, v2⟩, fin⟩ := s
  obtain ⟨hwg, hi1, hi2, hj, ho, he, hh, hr, hl, hc, hv⟩ := h
  simp only at h1 h2 hwg hi1 hi2 hr
  subst h1 h2
  simp [Task.pending] at hwg
  subst hwg
  cases main with
  | atGo1 => simp at hi1
  | atGo2 => simp at hi2
  | atWait => cases err <;> simp [mainSteps, step, Group.Wait]
  | afterWait r =>
    simp only at hr
    subst hr
    cases r <;> simp [mainSteps, step]
  | fatal e =>
    simp only at hr
    subst hr
    simp [mainSteps, step]
  | returned =>
    simp only at hr
    subst hr
    simp [mainSteps, step]

theorem stopped_of_waitReturned (s : Sys) (h : Inv s) (hw : s.waitReturned = true) (i : Srv) :
    ∃ r, (s.task i).phase = .stopped r := by
  have h0 := h.joined hw
  have h1 := h.wg
  have hi1 := h.idle1
  have hi2 := h.idle2
  rw [h0] at h1
  have hm1 : s.main ≠ .atGo1 := by
    intro e; simp [Sys.waitReturned, e] at hw
  have hm2 : s.main ≠ .atGo2 := by
    intro e; simp [Sys.waitReturned, e] at hw
  cases i
  · simp only [Sys.task]
    cases hp : s.t1.phase with
    | idle => exact absurd (hi1.mp hp) hm1
    | spawned =>
      have hq : s.t1.pending = 1 := by simp [Task.pending, hp]
      omega
    | listening =>
      have hq : s.t1.pending = 1 := by simp [Task.pending, hp]
      omega
    | stopped r => exact ⟨r, rfl⟩
  · simp only [Sys.task]
    cases hp : s.t2.phase with
    | idle =>
      rcases hi2.mp hp with e | e
      · exact absurd e hm1
      · exact absurd e hm2
    | spawned =>
      have hq : s.t2.pending = 1 := by simp [Task.pending, hp]
      omega
    | listening =>
      have hq : s.t2.pending = 1 := by simp [Task.pending, hp]
      omega
    | stopped r => exact ⟨r, rfl⟩

/-- C2: when both server tasks have terminated, `ginStartAllServer` ends in the fatal
log-and-exit exactly when the `ListenAndServe` of at least one task returned a non-nil error, the
error it logs is one a task returned, and when both returned nil it returns without the fatal
exit. -/
theorem C2_fatal_iff_error (trace : List Action) (s : Sys) (r1 r2 : Option Error)
    (hs : run Sys.init trace = some s)
    (h1 : s.t1.phase = .stopped r1) (h2 : s.t2.phase = .stopped r2) :
    ((∃ e, (mainSteps 2 s).main = .fatal e) ↔ (r1 ≠ none ∨ r2 ≠ none)) ∧
    (∀ e, (mainSteps 2 s).main = .fatal e → r1 = some e ∨ r2 = some e) ∧
    (r1 = none ∧ r2 = none → (mainSteps 2 s).main = .returned) := by
  have h := inv_reachable trace s hs
  have hm := main_of_stopped s h r1 r2 h1 h2
  obtain ⟨hn, he⟩ := err_of_stopped s h r1 r2 h1 h2
  cases herr : s.eg.err with
  | none =>
    rw [herr] at hm
    have hb := hn.mp herr
    refine ⟨⟨?_, ?_⟩, ?_, fun _ => hm⟩
    · rintro ⟨e, h'⟩
      rw [hm] at h'
      cases h'
    · intro h'
      rcases h' with h' | h'
      · exact absurd hb.1 h'
      · exact absurd hb.2 h'
    · intro e h'
      rw [hm] at h'
      cases h'
  | some e =>
    rw [herr] at hm
    have hb := he e herr
    refine ⟨⟨fun _ => ?_, fun _ => ⟨e, hm⟩⟩, ?_, ?_⟩
    · rcases hb with hb | hb
      · exact Or.inl (by rw [hb]; simp)
      · exact Or.inr (by rw [hb]; simp)
    · intro e' h'
      rw [hm] at h'
      cases h'
      exact hb
    · rintro ⟨a, b⟩
      rcases hb with hb | hb
      · rw [a] at hb; cases hb
      · rw [b] at hb; cases hb

/-- C2 on the execution in which server01 fails to bind and server02 serves one request and then
returns nil: the function ends in `log.Fatal` with the error of server01. -/
theorem C2_fatal_iff_error_witness :
    (∃ e, (mainSteps 2 ⟨.atWait, ⟨0, true, some "bind: address already in use"⟩,
        ⟨.stopped (some "bind: address already in use"), 1, 1, 0⟩, ⟨.stopped none, 1, 1, 1⟩,
        [(.server01, some "bind: address already in use"), (.server02, none)]⟩).main = .fatal e) ↔
      ((some "bind: address already in use" : Option Error) ≠ none ∨ (none : Option Error) ≠ none) :=
  (C2_fatal_iff_error
    [.main, .main, .bindFail .server01 "bind: address already in use", .listen .server02,
      .serve .server02, .stop .server02 none]
    ⟨.atWait, ⟨0, true, some "bind: address already in use"⟩,
      ⟨.stopped (some "bind: address already in use"), 1, 1, 0⟩, ⟨.stopped none, 1, 1, 1⟩,
      [(.server01, some "bind: address already in use"), (.server02, none)]⟩
    (some "bind: address already in use") none (by decide) rfl rfl).1

theorem setTask_finished (s : Sys) (i : Srv) (t : Task) :
    (s.setTask i t).finished = s.finished := by
  cases i <;> rfl

theorem step_finished (s s' : Sys) (a : Action) (hs : step s a = some s') :
    s'.finished = match a with
      | .bindFail i e => s.finished ++ [(i, some e)]
      | .stop i r => s.finished ++ [(i, r)]
      | _ => s.finished := by
  cases a with
  | main =>
    simp only [step] at hs
    split at hs <;> try (simp at hs; done)
    · simp only [Option.some.injEq] at hs; subst hs; rfl
    · simp only [Option.some.injEq] at hs; subst hs; rfl
    · split at hs
      · simp at hs
      · simp only [Option.some.injEq] at hs; subst hs; rfl
    · simp only [Option.some.injEq] at hs; subst hs; rfl
    · simp only [Option.some.injEq] at hs; subst hs; rfl
  | listen i =>
    simp only [step] at hs
    split at hs
    · simp only [Option.some.injEq] at hs; subst hs; exact setTask_finished _ _ _
    · simp at hs
  | bindFail i e =>
    simp only [step] at hs
    split at hs
    · simp only [Option.some.injEq] at hs; subst hs
      simp only [Sys.finish, setTask_finished]
    · simp at hs
  | serve i =>
    simp only [step] at hs
    split at hs
    · simp only [Option.some.injEq] at hs; subst hs; exact setTask_finished _ _ _
    · simp at hs
  | stop i r =>
    simp only [step] at hs
    split at hs
    · simp only [Option.some.injEq] at hs; subst hs
      simp only [Sys.finish, setTask_finished]
    · simp at hs

theorem step_finished_mono (s s' : Sys) (a : Action) (hs : step s a = some s')
    (x : Srv × Option Error) (hx : x ∈ s.finished) : x ∈ s'.finished := by
  rw [step_finished s s' a hs]
  cases a <;> simp [hx]

theorem run_finished_mono (trace : List Action) (s s' : Sys) (hs : run s trace = some s')
    (x : Srv × Option Error) (hx : x ∈ s.finished) : x ∈ s'.finished := by
  induction trace generalizing s with
  | nil =>
    simp only [run, Option.some.injEq] at hs
    subst hs
    exact hx
  | cons a rest ih =>
    simp only [run] at hs
    split at hs
    · simp at hs
    · rename_i s1 h1
      exact ih s1 hs (step_finished_mono s s1 a h1 x hx)

theorem run_bindFail_mem (trace : List Action) (s s' : Sys) (i : Srv) (e : Error)
    (hs : run s trace = some s') (hb : Action.bindFail i e ∈ trace) :
    (i, some e) ∈ s'.finished := by
  induction trace generalizing s with
  | nil => simp at hb
  | cons a rest ih =>
    simp only [run] at hs
    split at hs
    · simp at hs
    · rename_i s1 h1
      rcases List.mem_cons.mp hb with hb | hb
      · subst hb
        refine run_finished_mono rest s1 s' hs _ ?_
        rw [step_finished s s1 _ h1]
        simp
      · exact ih s1 hs hb

theorem run_finished_of_no_return (trace : List Action) (s s' : Sys) (hs : run s trace = some s')
    (hn : ∀ a ∈ trace, a.isReturn = false) : s'.finished = s.finished := by
  induction trace generalizing s with
  | nil =>
    simp only [run, Option.some.injEq] at hs
    subst hs
    rfl
  | cons a rest ih =>
    simp only [run] at hs
    split at hs
    · simp at hs
    · rename_i s1 h1
      rw [ih s1 hs (fun b hb => hn b (List.mem_cons_of_mem _ hb)), step_finished s s1 a h1]
      have ha := hn a (List.mem_cons_self _ _)
      cases a <;> simp [Action.isReturn] at ha ⊢

/-- While a task has not returned, the wait has not returned. -/
theorem not_returned_of_running (s : Sys) (h : Inv s) (i : Srv)
    (hi : ∀ r, (s.task i).phase ≠ .stopped r) :
    s.waitReturned = false ∧ ∀ e, s.main ≠ .fatal e := by
  have hw : s.waitReturned = false := by
    cases hw : s.waitReturned with
    | false => rfl
    | true =>
      obtain ⟨r, hr⟩ := stopped_of_waitReturned s h hw i
      exact absurd hr (hi r)
  refine ⟨hw, ?_⟩
  intro e he
  simp [Sys.waitReturned, he] at hw

/-- C4: the wait in `ginStartAllServer` returns only after both launched server tasks have
returned. In every reachable state in which a task has not returned, the wait has not returned
and no fatal exit has happened, also when the other task has failed; and in an execution in which
no task returns, the wait never returns. -/
theorem C4_wait_joins_all (trace : List Action) (s : Sys) (hs : run Sys.init trace = some s) :
    ((∃ i, ∀ r, (s.task i).phase ≠ .stopped r) →
      s.waitReturned = false ∧ ∀ e, s.main ≠ .fatal e) ∧
    ((∀ a ∈ trace, a.isReturn = false) →
      s.waitReturned = false ∧ ∀ e, s.main ≠ .fatal e) := by
  have h := inv_reachable trace s hs
  refine ⟨?_, ?_⟩
  · rintro ⟨i, hi⟩
    exact not_returned_of_running s h i hi
  · intro hn
    refine not_returned_of_running s h .server01 ?_
    intro r hr
    have hm := (h.hist .server01 r).mpr hr
    rw [run_finished_of_no_return trace Sys.init s hs hn] at hm
    simp [Sys.init] at hm

/-- C4 on the execution in which server01 has failed to bind while server02 listens and has
served a request: the wait has not returned. -/
theorem C4_wait_joins_all_witness :
    (⟨.atWait, ⟨1, true, some "bind: address already in use"⟩,
      ⟨.stopped (some "bind: address already in use"), 1, 1, 0⟩, ⟨.listening, 1, 1, 1⟩,
      [(.server01, some "bind: address already in use")]⟩ : Sys).waitReturned = false :=
  ((C4_wait_joins_all
    [.main, .main, .bindFail .server01 "bind: address already in use", .listen .server02,
      .serve .server02]
    ⟨.atWait, ⟨1, true, some "bind: address already in use"⟩,
      ⟨.stopped (some "bind: address already in use"), 1, 1, 0⟩, ⟨.listening, 1, 1, 1⟩,
      [(.server01, some "bind: address already in use")]⟩ (by decide)).1
    ⟨.server02, fun _ h => Phase.noConfusion h⟩).1

/-- When a task has returned a non-nil error and the other one has returned too, the main
goroutine ends in `log.Fatal`, with an error one of the two returned. -/
theorem fatal_of_failed (s : Sys) (h : Inv s) (i : Srv) (e : Error) (r : Option Error)
    (hi : (s.task i).phase = .stopped (some e)) (ho : (s.task i.other).phase = .stopped r) :
    ∃ e', (mainSteps 2 s).main = .fatal e' ∧ (e' = e ∨ r = some e') := by
  cases i
  · simp only [Sys.task, Srv.other] at hi ho
    have hm := main_of_stopped s h _ _ hi ho
    obtain ⟨hn, he⟩ := err_of_stopped s h _ _ hi ho
    cases herr : s.eg.err with
    | none => have := (hn.mp herr).1; cases this
    | some e' =>
      rw [herr] at hm
      refine ⟨e', hm, ?_⟩
      rcases he e' herr with q | q
      · cases q; exact Or.inl rfl
      · exact Or.inr q
  · simp only [Sys.task, Srv.other] at hi ho
    have hm := main_of_stopped s h _ _ ho hi
    obtain ⟨hn, he⟩ := err_of_stopped s h _ _ ho hi
    cases herr : s.eg.err with
    | none => have := (hn.mp herr).2; cases this
    | some e' =>
      rw [herr] at hm
      refine ⟨e', hm, ?_⟩
      rcases he e' herr with q | q
      · exact Or.inr q
      · cases q; exact Or.inl rfl

/-- C3, as the claim states it, fails: server01 has failed to bind and its task has completed,
server02 listens and serves, and the wait has not returned: the main goroutine is blocked in
`eg.Wait()` and nothing is logged. -/
theorem C3_counterexample :
    (run Sys.init [.main, .main, .listen .server02,
        .bindFail .server01 "bind: address already in use", .serve .server02]).map
      (fun s => ((s.task .server01).phase, (s.task .server02).phase, s.main, s.waitReturned,
        step s .main)) =
    some (.stopped (some "bind: address already in use"), .listening, .atWait, false, none) := by
  decide

/-- C3, amended: if the listener of instance `i` fails to bind, its task returns the bind error;
as long as the other task has not returned, the wait has not returned and no fatal exit has
happened; once the other task has returned, whatever its result (an error or nil), the wait
fails and `ginStartAllServer` ends in `log.Fatal` with an error one of the two tasks returned. -/
theorem C3_bind_failure (trace : List Action) (s : Sys) (i : Srv) (e : Error)
    (hs : run Sys.init trace = some s) (hb : Action.bindFail i e ∈ trace) :
    (s.task i).phase = .stopped (some e) ∧
    ((∀ r, (s.task i.other).phase ≠ .stopped r) →
      s.waitReturned = false ∧ ∀ e', s.main ≠ .fatal e') ∧
    (∀ r, (s.task i.other).phase = .stopped r →
      ∃ e', (mainSteps 2 s).main = .fatal e' ∧ (e' = e ∨ r = some e')) := by
  have h := inv_reachable trace s hs
  have hi : (s.task i).phase = .stopped (some e) :=
    (h.hist i (some e)).mp (run_bindFail_mem trace Sys.init s i e hs hb)
  refine ⟨hi, ?_, ?_⟩
  · intro hn
    exact not_returned_of_running s h i.other hn
  · intro r ho
    exact fatal_of_failed s h i e r hi ho

/-- C3, amended, on the execution in which server01 fails to bind and server02 later returns
nil: the function ends in `log.Fatal` with the bind error. -/
theorem C3_bind_failure_witness :
    ∃ e', (mainSteps 2 ⟨.atWait, ⟨0, true, some "bind: address already in use"⟩,
        ⟨.stopped (some "bind: address already in use"), 1, 1, 0⟩, ⟨.stopped none, 1, 1, 1⟩,
        [(.server01, some "bind: address already in use"), (.server02, none)]⟩).main = .fatal e' ∧
      (e' = "bind: address already in use" ∨ (none : Option Error) = some e') :=
  (C3_bind_failure
    [.main, .main, .bindFail .server01 "bind: address already in use", .listen .server02,
      .serve .server02, .stop .server02 none]
    ⟨.atWait, ⟨0, true, some "bind: address already in use"⟩,
      ⟨.stopped (some "bind: address already in use"), 1, 1, 0⟩, ⟨.stopped none, 1, 1, 1⟩,
      [(.server01, some "bind: address already in use"), (.server02, none)]⟩
    .server01 "bind: address already in use" (by decide) (by decide)).2.2 none rfl

/-- A task that has returned is not touched by any later step. -/
theorem step_stopped (s s' : Sys) (a : Action) (i : Srv) (r : Option Error) (h : Inv s)
    (hp : (s.task i).phase = .stopped r) (hs : step s a = some s') :
    s'.task i = s.task i := by
  have hi1 := h.idle1
  have hi2 := h.idle2
  cases a with
  | main =>
    simp only [step] at hs
    split at hs <;> try (simp at hs; done)
    · rename_i hm
      have q1 := hi1.mpr hm
      have q2 := hi2.mpr (Or.inl hm)
      cases i <;> simp only [Sys.task] at hp <;> simp [q1, q2] at hp
    · rename_i hm
      have q2 := hi2.mpr (Or.inr hm)
      simp only [Option.some.injEq] at hs
      subst hs
      cases i
      · rfl
      · simp only [Sys.task] at hp; simp [q2] at hp
    · split at hs
      · simp at hs
      · simp only [Option.some.injEq] at hs; subst hs; cases i <;> rfl
    · simp only [Option.some.injEq] at hs; subst hs; cases i <;> rfl
    · simp only [Option.some.injEq] at hs; subst hs; cases i <;> rfl
  | listen j =>
    simp only [step] at hs
    split at hs
    · rename_i hc
      simp only [Option.some.injEq] at hs; subst hs
      cases i <;> cases j <;> first | rfl | (rw [hp] at hc; simp at hc)
    · simp at hs
  | bindFail j e =>
    simp only [step] at hs
    split at hs
    · rename_i hc
      simp only [Option.some.injEq] at hs; subst hs
      cases i <;> cases j <;> first | rfl | (rw [hp] at hc; simp at hc)
    · simp at hs
  | serve j =>
    simp only [step] at hs
    split at hs
    · rename_i hc
      simp only [Option.some.injEq] at hs; subst hs
      cases i <;> cases j <;> first | rfl | (rw [hp] at hc; simp at hc)
    · simp at hs
  | stop j r' =>
    simp only [step] at hs
    split at hs
    · rename_i hc
      simp only [Option.some.injEq] at hs; subst hs
      cases i <;> cases j <;> first | rfl | (rw [hp] at hc; simp at hc)
    · simp at hs

/-- A launched goroutine that has not yet called `ListenAndServe` can always do so. -/
theorem listen_enabled (s : Sys) (h : Inv s) (i : Srv) (hp : (s.task i).phase = .spawned) :
    (step s (.listen i)).isSome = true := by
  have hw := alive_not_returned s h i (by simp [Task.pending, hp])
  have ha : s.alive = true := by
    cases hm : s.main <;> simp [Sys.waitReturned, Sys.alive, hm] at hw ⊢
  simp [step, ha, hp]

theorem run_stopped (more : List Action) (s s' : Sys) (i : Srv) (r : Option Error) (h : Inv s)
    (hp : (s.task i).phase = .stopped r) (hs : run s more = some s') :
    s'.task i = s.task i := by
  induction more generalizing s with
  | nil =>
    simp only [run, Option.some.injEq] at hs
    subst hs
    rfl
  | cons a rest ih =>
    simp only [run] at hs
    split at hs
    · simp at hs
    · rename_i s1 h1
      have e1 := step_stopped s s1 a i r h hp h1
      rw [← e1]
      exact ih s1 (inv_step s s1 a h h1) (by rw [e1]; exact hp) hs

/-- C7: in every execution of `ginStartAllServer` each server's `ListenAndServe` is invoked exactly
once. At no time has a server more than one task or more than one invocation; once the main
goroutine is past the two `eg.Go` statements exactly two tasks are launched, one per server; a
launched task is never prevented from invoking `ListenAndServe`, and has invoked it exactly once
when it listens, when it has returned and when the wait has returned; and after the accept loop
has returned, no continuation of the execution starts that server again. -/
theorem C7_invoked_once (trace : List Action) (s : Sys) (i : Srv)
    (hs : run Sys.init trace = some s) :
    (s.task i).launches ≤ 1 ∧ (s.task i).invocations ≤ 1 ∧
    (s.main ≠ .atGo1 → s.main ≠ .atGo2 →
      (s.task i).launches = 1 ∧ s.t1.launches + s.t2.launches = 2) ∧
    ((s.task i).phase = .spawned → (step s (.listen i)).isSome = true) ∧
    (((s.task i).phase = .listening ∨ ∃ r, (s.task i).phase = .stopped r) →
      (s.task i).invocations = 1) ∧
    (s.waitReturned = true → (s.task i).invocations = 1) ∧
    (∀ r more s', (s.task i).phase = .stopped r → run s more = some s' →
      s'.task i = s.task i) := by
  have h := inv_reachable trace s hs
  have hl := h.launches
  have hc := h.calls i
  have hstop : ((s.task i).phase = .listening ∨ ∃ r, (s.task i).phase = .stopped r) →
      (s.task i).invocations = 1 := by
    intro hp
    rcases hp with hp | ⟨r, hp⟩ <;> rw [hc, hp] <;> rfl
  refine ⟨?_, ?_, ?_, ?_, hstop, ?_, ?_⟩
  · rw [hl i]; split <;> omega
  · rw [hc]; cases (s.task i).phase <;> simp [Phase.calls]
  · intro m1 m2
    have q1 : s.t1.phase ≠ .idle := fun e => m1 (h.idle1.mp e)
    have q2 : s.t2.phase ≠ .idle := fun e => (h.idle2.mp e).elim m1 m2
    have l1 := hl .server01
    have l2 := hl .server02
    simp only [Sys.task] at l1 l2
    rw [if_neg q1] at l1
    rw [if_neg q2] at l2
    refine ⟨?_, by omega⟩
    cases i
    · exact l1
    · exact l2
  · exact listen_enabled s h i
  · intro hw
    exact hstop (Or.inr (stopped_of_waitReturned s h hw i))
  · intro r more s' hp hr
    exact run_stopped more s s' i r h hp hr

/-- C7 on the execution in which server01 fails to bind, server02 listens and stops, and the
wait returns: server01 was invoked exactly once. -/
theorem C7_invoked_once_witness :
    ((⟨.afterWait (some "bind: address already in use"),
        ⟨0, true, some "bind: address already in use"⟩,
        ⟨.stopped (some "bind: address already in use"), 1, 1, 0⟩, ⟨.stopped none, 1, 1, 0⟩,
        [(.server01, some "bind: address already in use"), (.server02, none)]⟩ : Sys).task
      .server01).invocations = 1 :=
  (C7_invoked_once
    [.main, .main, .bindFail .server01 "bind: address already in use", .listen .server02,
      .stop .server02 none, .main]
    ⟨.afterWait (some "bind: address already in use"),
      ⟨0, true, some "bind: address already in use"⟩,
      ⟨.stopped (some "bind: address already in use"), 1, 1, 0⟩, ⟨.stopped none, 1, 1, 0⟩,
      [(.server01, some "bind: address already in use"), (.server02, none)]⟩
    .server01 (by decide)).2.2.2.2.2.1 rfl

/-- C8, as the claim states it, fails: server01 has served a client request while it is the only
active listener, the task of server02 being launched but not yet listening. -/
theorem C8_counterexample :
    (run Sys.init [.main, .main, .listen .server01, .serve .server01]).map
      (fun s => (s.t1.served, s.activeListeners, s.t2.phase)) = some (1, 1, .spawned) := by
  decide

/-- In a reachable state a client request can be served by an instance exactly when that
instance's own listener is active. -/
theorem serve_enabled_iff (s : Sys) (h : Inv s) (i : Srv) :
    (step s (.serve i)).isSome = true ↔ (s.task i).phase = .listening := by
  constructor
  · intro hq
    simp only [step] at hq
    split at hq
    · rename_i hc; exact hc.2
    · simp at hq
  · intro hp
    have hw := alive_not_returned s h i (by simp [Task.pending, hp])
    have ha : s.alive = true := by
      cases hm : s.main <;> simp [Sys.waitReturned, Sys.alive, hm] at hw ⊢
    simp [step, ha, hp]

/-- C8, amended: in `ginStartAllServer` (N = 2) the number of concurrently active listeners never
exceeds the number of launched tasks, which never exceeds N, and it is N only while both tasks
are in their accept loops. Nothing makes the instances wait for one another before they serve: in
every reachable state an instance can serve a client request exactly when its own listener is
active, whatever the state of the other instance; serving counts one more request for that
instance and leaves the other instance and the number of active listeners as they are. -/
theorem C8_serve_unsynchronised (trace : List Action) (s : Sys) (i : Srv)
    (hs : run Sys.init trace = some s) :
    s.activeListeners ≤ s.t1.launches + s.t2.launches ∧
    s.t1.launches + s.t2.launches ≤ 2 ∧
    (s.activeListeners = 2 ↔ s.t1.phase = .listening ∧ s.t2.phase = .listening) ∧
    ((step s (.serve i)).isSome = true ↔ (s.task i).phase = .listening) ∧
    (∀ s', step s (.serve i) = some s' →
      (s'.task i).served = (s.task i).served + 1 ∧ s'.task i.other = s.task i.other ∧
      s'.activeListeners = s.activeListeners) ∧
    (0 < (s.task i).served →
      (s.task i).phase = .listening ∨ ∃ r, (s.task i).phase = .stopped r) := by
  have h := inv_reachable trace s hs
  have l1 := h.launches .server01
  have l2 := h.launches .server02
  simp only [Sys.task] at l1 l2
  refine ⟨?_, ?_, ?_, serve_enabled_iff s h i, ?_, h.served i⟩
  · unfold Sys.activeListeners
    rw [l1, l2]
    have a1 : (if s.t1.phase = .listening then 1 else 0 : Nat) ≤
        (if s.t1.phase = .idle then 0 else 1) := by
      split <;> split <;> simp_all
    have a2 : (if s.t2.phase = .listening then 1 else 0 : Nat) ≤
        (if s.t2.phase = .idle then 0 else 1) := by
      split <;> split <;> simp_all
    omega
  · rw [l1, l2]
    split <;> split <;> omega
  · unfold Sys.activeListeners
    constructor
    · intro hq
      split at hq <;> split at hq <;> first | omega | (constructor <;> assumption)
    · rintro ⟨a, b⟩
      rw [if_pos a, if_pos b]
  · intro s' hq
    simp only [step] at hq
    split at hq
    · rename_i hc
      simp only [Option.some.injEq] at hq
      subst hq
      have hp := hc.2
      cases i
      · simp only [Sys.task] at hp
        simp [Sys.setTask, Sys.task, Srv.other, Sys.activeListeners, hp]
      · simp only [Sys.task] at hp
        simp [Sys.setTask, Sys.task, Srv.other, Sys.activeListeners, hp]
    · simp at hq

/-- C8, amended, on the execution in which server02 has failed to bind and server01 listens:
server01 can serve a client request, as the only active listener. -/
theorem C8_serve_unsynchronised_witness :
    (step ⟨.atWait, ⟨1, true, some "bind: address already in use"⟩, ⟨.listening, 1, 1, 0⟩,
        ⟨.stopped (some "bind: address already in use"), 1, 1, 0⟩,
        [(.server02, some "bind: address already in use")]⟩ (.serve .server01)).isSome = true ∧
    (⟨.atWait, ⟨1, true, some "bind: address already in use"⟩, ⟨.listening, 1, 1, 0⟩,
        ⟨.stopped (some "bind: address already in use"), 1, 1, 0⟩,
        [(.server02, some "bind: address already in use")]⟩ : Sys).activeListeners = 1 :=
  ⟨(C8_serve_unsynchronised
      [.main, .main, .bindFail .server02 "bind: address already in use", .listen .server01]
      ⟨.atWait, ⟨1, true, some "bind: address already in use"⟩, ⟨.listening, 1, 1, 0⟩,
        ⟨.stopped (some "bind: address already in use"), 1, 1, 0⟩,
        [(.server02, some "bind: address already in use")]⟩
      .server01 (by decide)).2.2.2.1.mpr rfl, rfl⟩

theorem setRet_base (fs : FineSys) (i : Srv) (x : Option (Option Error)) :
    (fs.setRet i x).base = fs.base := by
  cases i <;> rfl

theorem lift_some (fs fs' : FineSys) (b : Option Sys) (h : fs.lift b = some fs') :
    b = some fs'.base := by
  cases b with
  | none => simp [FineSys.lift] at h
  | some b =>
    simp only [FineSys.lift, Option.map_some', Option.some.injEq] at h
    subst h
    rfl

/-- Every step of `fineStep` leaves the underlying state as it is or is a step of `step` on it. -/
theorem fineStep_base (fs fs' : FineSys) (a : FineAction) (h : fineStep fs a = some fs') :
    fs'.base = fs.base ∨ ∃ a', step fs.base a' = some fs'.base := by
  cases a with
  | main => exact Or.inr ⟨.main, lift_some _ _ _ h⟩
  | listen i =>
    simp only [fineStep] at h
    split at h
    · exact Or.inr ⟨.listen i, lift_some _ _ _ h⟩
    · simp at h
  | serve i =>
    simp only [fineStep] at h
    split at h
    · exact Or.inr ⟨.serve i, lift_some _ _ _ h⟩
    · simp at h
  | bindFail i e =>
    simp only [fineStep] at h
    split at h
    · simp only [Option.some.injEq] at h
      subst h
      exact Or.inl (setRet_base _ _ _)
    · simp at h
  | stop i r =>
    simp only [fineStep] at h
    split at h
    · simp only [Option.some.injEq] at h
      subst h
      exact Or.inl (setRet_base _ _ _)
    · simp at h
  | record i =>
    simp only [fineStep] at h
    split at h
    · rename_i e _ _
      exact Or.inr ⟨.bindFail i e, lift_some _ _ _ h⟩
    · rename_i r _ _
      exact Or.inr ⟨.stop i r, lift_some _ _ _ h⟩
    · simp at h

/-- Every execution of `fineStep` is, on the underlying state, an execution of `step`. -/
theorem fineRun_base (tr : List FineAction) (fs fs' : FineSys) (h : fineRun fs tr = some fs') :
    ∃ trace, run fs.base trace = some fs'.base := by
  induction tr generalizing fs with
  | nil =>
    simp only [fineRun, Option.some.injEq] at h
    subst h
    exact ⟨[], rfl⟩
  | cons a rest ih =>
    simp only [fineRun] at h
    split at h
    · simp at h
    · rename_i fs1 h1
      obtain ⟨trace, ht⟩ := ih fs1 h
      rcases fineStep_base fs fs1 a h1 with hb | ⟨a', ha⟩
      · rw [hb] at ht
        exact ⟨trace, ht⟩
      · refine ⟨a' :: trace, ?_⟩
        simp only [run, ha]
        exact ht

/-- C5, as the claim states it, fails: the `ListenAndServe` of server01 returns its error first,
that of server02 second, the join primitive takes the result of server02 first, and the wait
reports the error of server02. -/
theorem C5_counterexample :
    (fineRun FineSys.init [.main, .main, .listen .server01, .listen .server02,
        .stop .server01 (some "accept tcp :8080: too many open files"),
        .stop .server02 (some "accept tcp :8081: too many open files"),
        .record .server02, .record .server01]).map
      (fun fs => (fs.returned, fs.base.eg.Wait, (mainSteps 2 fs.base).main)) =
    some ([(.server01, some "accept tcp :8080: too many open files"),
           (.server02, some "accept tcp :8081: too many open files")],
          some (some "accept tcp :8081: too many open files"),
          .fatal "accept tcp :8081: too many open files") := by
  decide

/-- C5, amended: when both server tasks have terminated with non-nil errors, the error the wait
reports (and `log.Fatal` logs) is the error of the task whose result the join primitive took
first; it is the error of one of the two tasks, a single error, and the error taken later is
discarded. -/
theorem C5_first_recorded_wins (tr : List FineAction) (fs : FineSys) (i : Srv)
    (r : Option Error) (a b : Error) (hs : fineRun FineSys.init tr = some fs)
    (h1 : fs.base.t1.phase = .stopped (some a)) (h2 : fs.base.t2.phase = .stopped (some b))
    (hf : fs.base.finished.head? = some (i, r)) :
    ∃ e, r = some e ∧ (fs.base.task i).phase = .stopped (some e) ∧ (e = a ∨ e = b) ∧
      fs.base.eg.Wait = some (some e) ∧ (mainSteps 2 fs.base).main = .fatal e := by
  obtain ⟨trace, ht⟩ := fineRun_base tr FineSys.init fs hs
  have h := inv_reachable trace fs.base ht
  have hm := main_of_stopped fs.base h _ _ h1 h2
  have hwg : fs.base.eg.wg = 0 := by
    have := h.wg
    simp [Task.pending, h1, h2] at this
    exact this
  cases hl : fs.base.finished with
  | nil => simp [hl] at hf
  | cons x rest =>
    rw [hl] at hf
    simp only [List.head?_cons, Option.some.injEq] at hf
    subst hf
    have hmem : (i, r) ∈ fs.base.finished := by rw [hl]; exact List.mem_cons_self _ _
    have hp := (h.hist i r).mp hmem
    have hr : ∃ e, r = some e ∧ (e = a ∨ e = b) := by
      cases i
      · simp only [Sys.task] at hp; rw [h1] at hp; cases hp; exact ⟨a, rfl, Or.inl rfl⟩
      · simp only [Sys.task] at hp; rw [h2] at hp; cases hp; exact ⟨b, rfl, Or.inr rfl⟩
    obtain ⟨e, he, hab⟩ := hr
    subst he
    have herr : fs.base.eg.err = some e := by rw [h.err, hl]; rfl
    refine ⟨e, rfl, hp, hab, ?_, ?_⟩
    · simp [Group.Wait, hwg, herr]
    · rw [hm, herr]

/-- C5, amended, on the execution of `C5_counterexample`: the result of server02 is taken first
and its error is the one reported. -/
theorem C5_first_recorded_wins_witness :
    ∃ e, (some "accept tcp :8081: too many open files" : Option Error) = some e ∧
      (.stopped (some "accept tcp :8081: too many open files") : Phase) = .stopped (some e) ∧
      (e = "accept tcp :8080: too many open files" ∨
        e = "accept tcp :8081: too many open files") ∧
      (⟨0, true, some "accept tcp :8081: too many open files"⟩ : Group).Wait = some (some e) ∧
      (mainSteps 2 ⟨.atWait, ⟨0, true, some "accept tcp :8081: too many open files"⟩,
        ⟨.stopped (some "accept tcp :8080: too many open files"), 1, 1, 0⟩,
        ⟨.stopped (some "accept tcp :8081: too many open files"), 1, 1, 0⟩,
        [(.server02, some "accept tcp :8081: too many open files"),
         (.server01, some "accept tcp :8080: too many open files")]⟩).main = .fatal e :=
  C5_first_recorded_wins
    [.main, .main, .listen .server01, .listen .server02,
      .stop .server01 (some "accept tcp :8080: too many open files"),
      .stop .server02 (some "accept tcp :8081: too many open files"),
      .record .server02, .record .server01]
    ⟨⟨.atWait, ⟨0, true, some "accept tcp :8081: too many open files"⟩,
        ⟨.stopped (some "accept tcp :8080: too many open files"), 1, 1, 0⟩,
        ⟨.stopped (some "accept tcp :8081: too many open files"), 1, 1, 0⟩,
        [(.server02, some "accept tcp :8081: too many open files"),
         (.server01, some "accept tcp :8080: too many open files")]⟩,
      none, none,
      [(.server01, some "accept tcp :8080: too many open files"),
       (.server02, some "accept tcp :8081: too many open files")]⟩
    .server02 (some "accept tcp :8081: too many open files")
    "accept tcp :8080: too many open files" "accept tcp :8081: too many open files"
    (by decide) rfl rfl rfl

end GinExamples
